import Mathlib

/-!
# ThreeDayForecast: the forecast acquisition and merge pipeline

A shallow embedding of `src/components/ThreeDayForecast.js` and the properties of it
that the specification states.

Conventions of the embedding.

* A JavaScript string is the list of its UTF-16 code units (`JSString`); `length`,
  `slice` and `+` act on code units, as in the language.
* A raw forecast item carries the four fields the component reads (`fcstDate`,
  `fcstTime`, `category`, `fcstValue`); each is a string or absent (`none`, the value
  `undefined`).
* An object is the list of its own enumerable properties in creation order; the
  enumeration order of `Object.entries` and of object spread (array-index keys first) is
  computed from it by `ownEntries`.
* A Number produced by `parseFloat` is kept as the exact decimal value of the parsed
  literal; `ToBoolean` decides exactly whether that value rounds to a zero of binary64.
  Two different decimals may stand for the same Number.
* A `Date` is its time value (milliseconds since the epoch) together with the local time
  zone of the host, given as an initial UTC offset and a list of transitions; the getters
  and `setDate` are those of the language specification (`LocalTime`, `MakeDay`, `UTC`,
  `TimeClip`).
* A response body is an object or absent (`null` or `undefined`); `items.item`, when
  present, is an array of item objects.
* A `TypeError` raised by the code is the `error` case of `Except`.
* One invocation of `fetchForecast` is the sequence of its effects, given the clock
  readings and the outcome of every request.
-/

set_option exponentiation.threshold 1100

namespace ThreeDayForecast

/-! ## Strings -/

/-- A JavaScript string: its sequence of UTF-16 code units. -/
abbrev JSString := List Nat

/-- The UTF-16 code units of one Unicode scalar value. -/
def utf16 (c : Char) : List Nat :=
  if c.toNat < 65536 then [c.toNat]
  else [55296 + (c.toNat - 65536) / 1024, 56320 + (c.toNat - 65536) % 1024]

/-- The JavaScript string written by a string literal. -/
def js (s : String) : JSString := s.toList.flatMap utf16

/-- `String.prototype.slice(start, end)` for non-negative integer arguments: the code
units from `min start len` up to `min end len` (empty when that range is empty). -/
def slice (s : JSString) (start stop : Nat) : JSString :=
  (s.take stop).drop start

/-- The `ToString` conversion of a value that is a string or `undefined`. -/
def toStr : Option JSString → JSString
  | some s => s
  | none => js "undefined"

/-- `const parseDate = (rawDate) => ...` (lines 13-16). `!rawDate` holds for `undefined`
and for the empty string. -/
def parseDate (rawDate : Option JSString) : JSString :=
  match rawDate with
  | none => js "날짜 정보 없음"
  | some s =>
    if s.length = 0 ∨ s.length ≠ 8 then js "날짜 정보 없음"
    else slice s 0 4 ++ js "-" ++ slice s 4 6 ++ js "-" ++ slice s 6 8

/-- `const getBaseTime = () => ...` (lines 29-41), as a function of `now.getHours()`. -/
def getBaseTime (hours : Nat) : JSString :=
  if hours ≥ 2 ∧ hours < 5 then js "0200"
  else if hours ≥ 5 ∧ hours < 8 then js "0500"
  else if hours ≥ 8 ∧ hours < 11 then js "0800"
  else if hours ≥ 11 ∧ hours < 14 then js "1100"
  else if hours ≥ 14 ∧ hours < 17 then js "1400"
  else if hours ≥ 17 ∧ hours < 20 then js "1700"
  else if hours ≥ 20 ∧ hours < 23 then js "2000"
  else js "2300"

/-! ## Numbers -/

/-- A JavaScript Number as `parseFloat` produces it: `NaN`, an infinity, or the Number
nearest to `(-1)^negative * mantissa * 10^exponent` (the mathematical value of the parsed
decimal literal, kept exact here; the language rounds it to a binary64 value). -/
inductive JSNumber where
  | nan
  | infinity (negative : Bool)
  | decimal (negative : Bool) (mantissa : Nat) (exponent : Int)
  deriving DecidableEq, Repr

/-- The Number `+0`, written `0` in the source. -/
def JSNumber.zero : JSNumber := .decimal false 0 0

/-- Whether `mantissa * 10^exponent` rounds to a zero of binary64, that is whether it is
at most `2^-1075`, half the least positive binary64 value. -/
def roundsToZero (mantissa : Nat) (exponent : Int) : Bool :=
  if 0 ≤ exponent then mantissa == 0
  else decide (mantissa * 2 ^ 1075 ≤ 10 ^ (-exponent).toNat)

/-- `ToBoolean` on a Number: `NaN`, `+0` and `-0` are falsy. -/
def JSNumber.toBoolean : JSNumber → Bool
  | .nan => false
  | .infinity _ => true
  | .decimal _ m e => !roundsToZero m e

/-- The `StrWhiteSpaceChar` code units (white space and line terminators). -/
def isWhiteSpace (c : Nat) : Bool :=
  c == 9 || c == 10 || c == 11 || c == 12 || c == 13 || c == 32 || c == 160 ||
  c == 5760 || (8192 ≤ c && c ≤ 8202) || c == 8232 || c == 8233 || c == 8239 ||
  c == 8287 || c == 12288 || c == 65279

/-- A decimal digit `0`..`9`. -/
def isDecimalDigit (c : Nat) : Bool := 48 ≤ c && c ≤ 57

/-- The mathematical value of a run of decimal digits. -/
def digitsValue (ds : List Nat) : Nat := ds.foldl (fun n d => 10 * n + (d - 48)) 0

/-- The value of the longest `ExponentPart` (`e` or `E`, an optional sign, digits) that
starts `s`, and `0` when `s` starts with none. -/
def exponentPart (s : JSString) : Int :=
  match s with
  | [] => 0
  | e :: rest =>
    if e == 101 || e == 69 then
      match rest with
      | [] => 0
      | sign :: ds =>
        if sign == 45 then
          if (ds.takeWhile isDecimalDigit).isEmpty then 0
          else -((digitsValue (ds.takeWhile isDecimalDigit) : Nat) : Int)
        else if sign == 43 then ((digitsValue (ds.takeWhile isDecimalDigit) : Nat) : Int)
        else ((digitsValue (rest.takeWhile isDecimalDigit) : Nat) : Int)
    else 0

/-- The longest prefix of `s` that is a `StrUnsignedDecimalLiteral`, as a Number of the
given sign; `NaN` when no prefix is one. -/
def unsignedDecimalLiteral (negative : Bool) (s : JSString) : JSNumber :=
  if (js "Infinity").isPrefixOf s then .infinity negative
  else
    let intDigits := s.takeWhile isDecimalDigit
    let afterInt := s.dropWhile isDecimalDigit
    let fracDigits :=
      match afterInt with
      | [] => []
      | c :: r => if c == 46 then r.takeWhile isDecimalDigit else []
    let afterFrac :=
      match afterInt with
      | [] => []
      | c :: r => if c == 46 then r.dropWhile isDecimalDigit else afterInt
    if intDigits.isEmpty && fracDigits.isEmpty then .nan
    else .decimal negative (digitsValue (intDigits ++ fracDigits))
      (exponentPart afterFrac - (fracDigits.length : Int))

/-- The global `parseFloat` applied to a string or `undefined`: `ToString`, strip leading
white space, then the longest prefix that is a `StrDecimalLiteral`. -/
def parseFloat (v : Option JSString) : JSNumber :=
  match (toStr v).dropWhile isWhiteSpace with
  | [] => .nan
  | c :: rest =>
    if c == 45 then unsignedDecimalLiteral true rest
    else if c == 43 then unsignedDecimalLiteral false rest
    else unsignedDecimalLiteral false (c :: rest)

/-- The expression `n || 0` on a Number `n`. -/
def orZero (n : JSNumber) : JSNumber :=
  if n.toBoolean then n else JSNumber.zero

/-- The expression `v || "-"` on a value that is a string or `undefined`: the empty
string and `undefined` are falsy. -/
def orDash (v : Option JSString) : JSString :=
  match v with
  | none => js "-"
  | some s => if s.length = 0 then js "-" else s

/-! ## Objects -/

/-- An ordinary object whose prototype is `Object.prototype`: its own enumerable data
properties with values of type `α`, in creation order. -/
abbrev Props (α : Type) := List (JSString × α)

/-- The value of the own property `k`, and `none` when the object has no such own
property. -/
def getOwn {α : Type} (o : Props α) (k : JSString) : Option α :=
  match o with
  | [] => none
  | (k', v) :: rest => if k' = k then some v else getOwn rest k

/-- Create the own data property `k`, or overwrite its value where it stands. -/
def defineProperty {α : Type} (o : Props α) (k : JSString) (v : α) : Props α :=
  match o with
  | [] => [(k, v)]
  | (k', v') :: rest => if k' = k then (k, v) :: rest else (k', v') :: defineProperty rest k v

/-- The assignment `o[k] = v` of a value that is a string or `undefined`. Every name but
`__proto__` creates or overwrites an own data property (the properties of
`Object.prototype` are writable data properties, so they are shadowed). The name
`__proto__` reaches the accessor inherited from `Object.prototype`, whose setter ignores
a value that is neither an object nor `null`: the object is left as it was. -/
def setProperty {α : Type} (o : Props α) (k : JSString) (v : α) : Props α :=
  if k = js "__proto__" then o else defineProperty o k v

/-- The array index a property key denotes: the key is the canonical decimal rendering
of an integer in `0 .. 2^32 - 2`. -/
def arrayIndex? (k : JSString) : Option Nat :=
  if k.length ≠ 0 ∧ k.all isDecimalDigit = true ∧ (k = [48] ∨ k.head? ≠ some 48) ∧
      digitsValue k < 4294967295 then some (digitsValue k)
  else none

/-- Insert an indexed property into a list sorted by ascending index. -/
def insertByIndex {α : Type} (p : Nat × (JSString × α)) :
    List (Nat × (JSString × α)) → List (Nat × (JSString × α))
  | [] => [p]
  | q :: qs => if p.1 < q.1 then p :: q :: qs else q :: insertByIndex p qs

/-- The own properties whose key is an array index, sorted by ascending index. -/
def indexProperties {α : Type} : Props α → List (Nat × (JSString × α))
  | [] => []
  | (k, v) :: rest =>
    match arrayIndex? k with
    | some i => insertByIndex (i, (k, v)) (indexProperties rest)
    | none => indexProperties rest

/-- The order in which `Object.entries` and object spread visit the own properties:
array-index keys first, by ascending index, then the other keys in creation order. -/
def ownEntries {α : Type} (o : Props α) : Props α :=
  (indexProperties o).map Prod.snd ++ o.filter (fun p => (arrayIndex? p.1).isNone)

/-! ## Responses and raw items -/

/-- One element of `items.item`: the four fields the component reads, each a string or
absent. -/
structure RawForecastItem where
  fcstDate : Option JSString
  fcstTime : Option JSString
  category : Option JSString
  fcstValue : Option JSString
  deriving DecidableEq, Repr

/-- The object under `body.items`. -/
structure Items where
  item : Option (List RawForecastItem)
  deriving DecidableEq, Repr

/-- The object under `response.body`. -/
structure Body where
  items : Option Items
  deriving DecidableEq, Repr

/-- The object under `data.response`. -/
structure ResponseField where
  body : Option Body
  deriving DecidableEq, Repr

/-- A parsed body `res.data` that is neither `null` nor `undefined`. `response = none`
stands for every such body on which `.response` evaluates to `undefined`: an object
without that property, or a text body. -/
structure Data where
  response : Option ResponseField
  deriving DecidableEq, Repr

/-- A resolved axios response. `data = none` is a body that is `null` or `undefined`
(the JSON text `null`, for one). -/
structure AxiosResponse where
  data : Option Data
  deriving DecidableEq, Repr

/-- An exception raised while the code runs. -/
inductive JSError where
  | typeError
  deriving DecidableEq, Repr

deriving instance DecidableEq for Except

/-- A value stored in a forecast record. -/
inductive JSValue where
  | undefined
  | string (s : JSString)
  | number (n : JSNumber)
  deriving DecidableEq, Repr

/-- A value that is a string or `undefined`, as a `JSValue`. -/
def toValue : Option JSString → JSValue
  | none => .undefined
  | some s => .string s

/-- An entry of `groupedData`: the fields are strings or `undefined`. -/
abbrev GroupedRecord := Props (Option JSString)

/-- The accumulator `acc` of the `reduce` call. -/
abbrev GroupedData := Props GroupedRecord

/-! ## mergeResponses -/

/-- The flatMap callback: `res.data.response?.body?.items?.item || []` (line 45). The
optional chaining starts after `.response`: reading `.response` of a body that is `null`
or `undefined` raises a `TypeError`. An array is truthy, also when empty. -/
def itemsOf (res : AxiosResponse) : Except JSError (List RawForecastItem) :=
  match res.data with
  | none => .error .typeError
  | some d =>
    match d.response with
    | none => .ok []
    | some r =>
      match r.body with
      | none => .ok []
      | some b =>
        match b.items with
        | none => .ok []
        | some its =>
          match its.item with
          | none => .ok []
          | some l => .ok l

/-- `responses.flatMap(callback)`: the concatenation of the callback's arrays, in order;
it stops at the first exception. -/
def flatMap (responses : List AxiosResponse) : Except JSError (List RawForecastItem) :=
  match responses with
  | [] => .ok []
  | res :: rest =>
    match itemsOf res with
    | .error e => .error e
    | .ok l =>
      match flatMap rest with
      | .error e => .error e
      | .ok ls => .ok (l ++ ls)

/-- The template literal of line 47. -/
def dateTimeKey (item : RawForecastItem) : JSString :=
  toStr item.fcstDate ++ js "-" ++ toStr item.fcstTime

/-- The object literal of lines 49-52; `item.fcstTime.slice` raises a `TypeError` when
`fcstTime` is `undefined`. -/
def newRecord (item : RawForecastItem) : Except JSError GroupedRecord :=
  match item.fcstTime with
  | none => .error .typeError
  | some t =>
    .ok [(js "date", some (parseDate item.fcstDate)), (js "time", some (slice t 0 2 ++ js ":00"))]

/-- The statement `acc[dateTimeKey][item.category] = item.fcstValue` (line 54) on the entry
that exists under `key`. -/
def assignCategory (acc : GroupedData) (key : JSString) (item : RawForecastItem) :
    GroupedData :=
  match acc with
  | [] => []
  | (k, value) :: rest =>
    if k = key then (k, setProperty value (toStr item.category) item.fcstValue) :: rest
    else (k, value) :: assignCategory rest key item

/-- The reducer callback (lines 46-56). The key holds `-`, so it is never `__proto__` and
`acc[dateTimeKey]` reads and creates an own property of `acc`. -/
def reducer (acc : GroupedData) (item : RawForecastItem) : Except JSError GroupedData :=
  match getOwn acc (dateTimeKey item) with
  | none =>
    match newRecord item with
    | .error e => .error e
    | .ok r => .ok (assignCategory (acc ++ [(dateTimeKey item, r)]) (dateTimeKey item) item)
  | some _ => .ok (assignCategory acc (dateTimeKey item) item)

/-- `allItems.reduce(reducer, acc)`: a left fold that stops at the first exception. -/
def reduce (allItems : List RawForecastItem) (acc : GroupedData) :
    Except JSError GroupedData :=
  match allItems with
  | [] => .ok acc
  | item :: rest =>
    match reducer acc item with
    | .error e => .error e
    | .ok acc' => reduce rest acc'

/-- The map callback of lines 57-63: spread `value`, then define the four derived
fields. -/
def project (value : GroupedRecord) : Props JSValue :=
  let spread : Props JSValue := (ownEntries value).map (fun p => (p.1, toValue p.2))
  let o1 := defineProperty spread (js "temperature")
    (.number (orZero (parseFloat ((getOwn value (js "TMP")).join))))
  let o2 := defineProperty o1 (js "rainProbability")
    (.number (orZero (parseFloat ((getOwn value (js "POP")).join))))
  let o3 := defineProperty o2 (js "sky") (.string (orDash ((getOwn value (js "SKY")).join)))
  defineProperty o3 (js "rainType") (.string (orDash ((getOwn value (js "PTY")).join)))

/-- `const mergeResponses = (responses) => ...` (lines 44-64). -/
def mergeResponses (responses : List AxiosResponse) : Except JSError (List (Props JSValue)) :=
  match flatMap responses with
  | .error e => .error e
  | .ok allItems =>
    match reduce allItems [] with
    | .error e => .error e
    | .ok groupedData => .ok ((ownEntries groupedData).map (fun p => project p.2))

/-- A response whose body carries the given items. -/
def responseOf (items : List RawForecastItem) : AxiosResponse :=
  { data := some { response := some { body := some { items := some { item := some items } } } } }

/-- A raw item with all four fields present. -/
def rawItem (fcstDate fcstTime category fcstValue : String) : RawForecastItem :=
  { fcstDate := some (js fcstDate), fcstTime := some (js fcstTime),
    category := some (js category), fcstValue := some (js fcstValue) }

/-! ## Dates

Time values are integers, in milliseconds since the epoch, and the functions on them are
those of the language specification (`Day`, `YearFromTime`, `MakeDay`, `LocalTime`,
`UTC`, ...). -/

/-- Milliseconds in a day. -/
def msPerDay : Int := 86400000

/-- Milliseconds in an hour. -/
def msPerHour : Int := 3600000

/-- `Day(t)`: the day number of a time value. -/
def day (t : Int) : Int := t / msPerDay

/-- `TimeWithinDay(t)`. -/
def timeWithinDay (t : Int) : Int := t % msPerDay

/-- `DaysInYear(y)`. -/
def daysInYear (y : Int) : Int :=
  if y % 4 ≠ 0 then 365 else if y % 100 ≠ 0 then 366 else if y % 400 ≠ 0 then 365 else 366

/-- `DayFromYear(y)`: the day number of the first day of year `y`. -/
def dayFromYear (y : Int) : Int :=
  365 * (y - 1970) + (y - 1969) / 4 - (y - 1901) / 100 + (y - 1601) / 400

/-- Search downwards from `y` for the largest year that starts on or before day `d`. -/
def yearSearch : Nat → Int → Int → Int
  | 0, y, _ => y
  | fuel + 1, y, d => if dayFromYear y ≤ d then y else yearSearch fuel (y - 1) d

/-- The year of day number `d`: the largest `y` with `DayFromYear(y) ≤ d`. The search
starts at a year that is not too small and has fuel to reach the answer (see
`yearOfDay_spec`). -/
def yearOfDay (d : Int) : Int :=
  yearSearch (d.natAbs / 365 + 2) (if 0 ≤ d then 1970 + d / 365 else 1969) d

/-- `YearFromTime(t)`. -/
def yearFromTime (t : Int) : Int := yearOfDay (day t)

/-- `InLeapYear(t)`, as 0 or 1. -/
def inLeapYear (t : Int) : Int := if daysInYear (yearFromTime t) = 366 then 1 else 0

/-- `DayWithinYear(t)`. -/
def dayWithinYear (t : Int) : Int := day t - dayFromYear (yearFromTime t)

/-- `MonthFromTime(t)`, 0 for January. -/
def monthFromTime (t : Int) : Int :=
  let d := dayWithinYear t
  let l := inLeapYear t
  if d < 31 then 0
  else if d < 59 + l then 1
  else if d < 90 + l then 2
  else if d < 120 + l then 3
  else if d < 151 + l then 4
  else if d < 181 + l then 5
  else if d < 212 + l then 6
  else if d < 243 + l then 7
  else if d < 273 + l then 8
  else if d < 304 + l then 9
  else if d < 334 + l then 10
  else 11

/-- The day within the year on which month `m` starts, in a year with leap flag `l`. -/
def monthStart (m l : Int) : Int :=
  if m = 0 then 0
  else if m = 1 then 31
  else if m = 2 then 59 + l
  else if m = 3 then 90 + l
  else if m = 4 then 120 + l
  else if m = 5 then 151 + l
  else if m = 6 then 181 + l
  else if m = 7 then 212 + l
  else if m = 8 then 243 + l
  else if m = 9 then 273 + l
  else if m = 10 then 304 + l
  else 334 + l

/-- `DateFromTime(t)`: the day of the month, from 1. -/
def dateFromTime (t : Int) : Int :=
  dayWithinYear t - monthStart (monthFromTime t) (inLeapYear t) + 1

/-- `HourFromTime(t)`. -/
def hourFromTime (t : Int) : Int := (t / msPerHour) % 24

/-- `MakeDay(year, month, date)` for integer arguments: the day number of the first day
of the month, plus `date - 1`; a month outside 0..11 carries into the year. -/
def makeDay (year month date : Int) : Int :=
  let ym := year + month / 12
  let mn := month % 12
  dayFromYear ym + monthStart mn (if daysInYear ym = 366 then 1 else 0) + date - 1

/-- `MakeDate(day, time)`. -/
def makeDate (day time : Int) : Int := day * msPerDay + time

/-- `TimeClip(time)`: `none` is `NaN`. -/
def timeClip (t : Int) : Option Int :=
  if t.natAbs ≤ 8640000000000000 then some t else none

/-- The local time zone of the host: the UTC offset (in milliseconds) in force before the
first transition, and the transitions in ascending order of their instant, each with the
offset in force from that instant on. -/
structure TimeZone where
  initialOffset : Int
  transitions : List (Int × Int)
  deriving DecidableEq, Repr

/-- The offset in force at the instant `u`, given the offset before the listed
transitions. -/
def offsetFrom (offset : Int) (u : Int) : List (Int × Int) → Int
  | [] => offset
  | (instant, offset') :: rest => if u < instant then offset else offsetFrom offset' u rest

/-- `LocalTime(t)`: the time value plus the offset in force at `t`. -/
def TimeZone.localTime (tz : TimeZone) (t : Int) : Int :=
  t + offsetFrom tz.initialOffset t tz.transitions

/-- The instant a local time stands for, given the offset before the listed transitions:
the earliest instant whose local time it is; a local time skipped at a transition is
read with the offset in force before that transition. -/
def utcFrom (offset : Int) (t : Int) : List (Int × Int) → Int
  | [] => t - offset
  | (instant, offset') :: rest =>
    if t - offset < instant then t - offset
    else if t - offset' < instant then t - offset
    else utcFrom offset' t rest

/-- `UTC(t)`: the instant of a local time. -/
def TimeZone.utc (tz : TimeZone) (t : Int) : Int :=
  utcFrom tz.initialOffset t tz.transitions

/-- A `Date` object with a valid time value, on a host in the given time zone. -/
structure JSDate where
  timeValue : Int
  zone : TimeZone
  deriving DecidableEq, Repr

/-- `Date.prototype.getFullYear()`. -/
def JSDate.getFullYear (t : JSDate) : Int := yearFromTime (t.zone.localTime t.timeValue)

/-- `Date.prototype.getMonth()`. -/
def JSDate.getMonth (t : JSDate) : Int := monthFromTime (t.zone.localTime t.timeValue)

/-- `Date.prototype.getDate()`. -/
def JSDate.getDate (t : JSDate) : Int := dateFromTime (t.zone.localTime t.timeValue)

/-- `Date.prototype.getHours()`; the value lies in 0..23. -/
def JSDate.getHours (t : JSDate) : Nat := (hourFromTime (t.zone.localTime t.timeValue)).toNat

/-- `Date.prototype.setDate(dt)` on a copy of the Date: the local time of the Date with
its day of the month replaced, read back as an instant and clipped. `none` is an invalid
Date (time value `NaN`). -/
def JSDate.setDate (t : JSDate) (dt : Int) : Option JSDate :=
  let lt := t.zone.localTime t.timeValue
  let newDate := makeDate (makeDay (yearFromTime lt) (monthFromTime lt) dt) (timeWithinDay lt)
  match timeClip (t.zone.utc newDate) with
  | none => none
  | some u => some { t with timeValue := u }

/-- The decimal digits of `n`, most significant first; `fuel` bounds their number. -/
def decimalDigits : Nat → Nat → JSString
  | 0, _ => []
  | fuel + 1, n => if n < 10 then [48 + n] else decimalDigits fuel (n / 10) ++ [48 + n % 10]

/-- `String(n)` and template-literal conversion of a non-negative integer below `10^21`. -/
def natToString (n : Nat) : JSString := decimalDigits (n + 1) n

/-- `String(n)` and template-literal conversion of an integer of magnitude below
`10^21`. -/
def intToString (n : Int) : JSString :=
  if n < 0 then js "-" ++ natToString n.natAbs else natToString n.natAbs

/-- `String.prototype.padStart(targetLength, fill)`. -/
def padStart (s : JSString) (targetLength : Nat) (fill : JSString) : JSString :=
  if targetLength ≤ s.length ∨ fill.length = 0 then s
  else ((List.replicate (targetLength - s.length) fill).flatten.take
    (targetLength - s.length)) ++ s

/-- The template literal of line 24. On an invalid Date the three getters return `NaN`,
and `String(NaN + 1)` is `"NaN"`. -/
def formatDate (date : Option JSDate) : JSString :=
  match date with
  | none => js "NaN" ++ padStart (js "NaN") 2 (js "0") ++ padStart (js "NaN") 2 (js "0")
  | some d =>
    intToString d.getFullYear ++ padStart (intToString (d.getMonth + 1)) 2 (js "0") ++
      padStart (intToString d.getDate) 2 (js "0")

/-- `const getThreeDays = () => ...` (lines 19-26), as a function of `now = new Date()`.
`Array.from({ length: 3 }, f)` calls `f` with the indices 0, 1, 2; each call copies `now`
before `setDate`. -/
def getThreeDays (now : JSDate) : List JSString :=
  (List.range 3).map (fun i => formatDate (now.setDate (now.getDate + (i : Int))))

/-! ## fetchForecast -/

/-- The query parameters of one request that vary; the others are constants. -/
structure RequestParams where
  base_date : JSString
  base_time : JSString
  deriving DecidableEq, Repr

/-- Why a request promise rejected (network failure or a non-success status). -/
inductive RequestFailure where
  | networkError
  | badStatus (status : Nat)
  deriving DecidableEq, Repr

/-- What the component does to its environment, in order. -/
inductive Effect where
  | setLoading (b : Bool)
  | setError (e : Option JSString)
  | setForecast (f : List (Props JSValue))
  | consoleLog
  | consoleError
  deriving DecidableEq, Repr

/-- The three state cells of the component that `fetchForecast` writes. -/
structure ComponentState where
  forecast : List (Props JSValue)
  loading : Bool
  error : Option JSString
  deriving DecidableEq, Repr

/-- The state after one effect. -/
def ComponentState.apply (st : ComponentState) : Effect → ComponentState
  | .setLoading b => { st with loading := b }
  | .setError e => { st with error := e }
  | .setForecast f => { st with forecast := f }
  | .consoleLog => st
  | .consoleError => st

/-- The state after a sequence of effects. -/
def ComponentState.run (st : ComponentState) (effects : List Effect) : ComponentState :=
  effects.foldl ComponentState.apply st

/-- `Promise.all`: fulfilled with all the values, in order, when every promise is
fulfilled, and rejected when any promise is rejected. (Which rejection reason it carries
depends on arrival order; the component only logs it.) -/
def promiseAll {ε α : Type} : List (Except ε α) → Except ε (List α)
  | [] => .ok []
  | .error e :: _ => .error e
  | .ok a :: rest =>
    match promiseAll rest with
    | .error e => .error e
    | .ok as => .ok (a :: as)

/-- The user-facing message of line 104. -/
def failureMessage : JSString := js "날씨 데이터를 가져오는 데 실패했습니다."

/-- The body of the `try` block (lines 72-101) and of the `catch` block (lines 103-104):
the effects after the two initial setters and before the `finally` block. `getThreeDays`
and `getBaseTime` each read the clock, `now` first and `now'` after it. -/
def tryCatch (now now' : JSDate)
    (axiosGet : RequestParams → Except RequestFailure AxiosResponse) : List Effect :=
  let dates := getThreeDays now
  let baseTime := getBaseTime now'.getHours
  let requests := dates.map (fun baseDate =>
    axiosGet { base_date := baseDate, base_time := baseTime })
  [.consoleLog, .consoleLog, .consoleLog] ++
  match promiseAll requests with
  | .error _ => [.consoleError, .setError (some failureMessage)]
  | .ok responses =>
    match mergeResponses responses with
    | .error _ => [.consoleError, .setError (some failureMessage)]
    | .ok formattedData => [.setForecast formattedData]

/-- `const fetchForecast = useCallback(async () => ...)` (lines 67-108), as the sequence
of effects of one invocation, given the two clock readings and the outcome of each
request. -/
def fetchForecast (now now' : JSDate)
    (axiosGet : RequestParams → Except RequestFailure AxiosResponse) : List Effect :=
  [.setLoading true, .setError none] ++ tryCatch now now' axiosGet ++ [.setLoading false]

/-! ## Specification-side notions -/

/-- The sentinel `parseDate` returns for an absent or wrongly sized date. -/
def dateSentinel : JSString := js "날짜 정보 없음"

/-- The eight publication slots, as hours. -/
def slots : List Nat := [2, 5, 8, 11, 14, 17, 20, 23]

/-- The 4-digit rendering `HH00` of a slot hour. -/
def slotString (s : Nat) : JSString := padStart (natToString s) 2 (js "0") ++ js "00"

/-- The items a response carries; none when it carries no item list or no body at all. -/
def itemList (res : AxiosResponse) : List RawForecastItem :=
  match itemsOf res with
  | .ok l => l
  | .error _ => []

/-- The flattened item sequence: the items of all responses, responses in request order,
items in in-response order. It is the value of `allItems` (line 45) whenever the
`flatMap` call returns. -/
def allItems (responses : List AxiosResponse) : List RawForecastItem :=
  responses.flatMap itemList

/-- The distinct elements of a list in the order of their first occurrence. -/
def firstOccurrences : List JSString → List JSString
  | [] => []
  | k :: ks => k :: (firstOccurrences ks).filter (fun x => x ≠ k)

/-- The items of the flattened sequence that fall under the key `k`, in order. -/
def groupOf (items : List RawForecastItem) (k : JSString) : List RawForecastItem :=
  items.filter (fun it => dateTimeKey it = k)

/-- The record a key starts with: `date` and `time` of the first item seen for it. -/
def initialRecord (first : RawForecastItem) : GroupedRecord :=
  [(js "date", some (parseDate first.fcstDate)),
   (js "time", first.fcstTime.map (fun t => slice t 0 2 ++ js ":00"))]

/-- The accumulated record of one group: initialised from the first item of the group,
then every item of the group, in order, assigns its value under its category. -/
def groupRecord (g : List RawForecastItem) : GroupedRecord :=
  match g with
  | [] => []
  | first :: _ =>
    g.foldl (fun r it => setProperty r (toStr it.category) it.fcstValue) (initialRecord first)

/-- The accumulator in closed form: one entry per distinct key, in the order of first
occurrence, holding the accumulated record of the key's group. -/
def closedForm (items : List RawForecastItem) : GroupedData :=
  (firstOccurrences (items.map dateTimeKey)).map (fun k => (k, groupRecord (groupOf items k)))

/-- The (fcstDate, fcstTime) pair of an item. -/
def dateTimePair (it : RawForecastItem) : Option JSString × Option JSString :=
  (it.fcstDate, it.fcstTime)

/-- Two items with different (fcstDate, fcstTime) pairs and the same key string
`"2024-01-01"`. -/
def collidingResponses : List AxiosResponse :=
  [responseOf [rawItem "2024-01" "01" "TMP" "1", rawItem "2024" "01-01" "TMP" "2"]]

/-- The last item of a group that writes the property `c`, if any. -/
def lastOfCategory (g : List RawForecastItem) (c : JSString) : Option RawForecastItem :=
  (g.filter (fun j => toStr j.category = c)).getLast?

/-- Whether a string is, as a whole, a decimal numeral: an optional sign, then digits
with an optional fraction part. -/
def isNumericString (s : JSString) : Bool :=
  let body := match s with
    | [] => []
    | c :: r => if c == 45 || c == 43 then r else c :: r
  let intDigits := body.takeWhile isDecimalDigit
  match body.dropWhile isDecimalDigit with
  | [] => !intDigits.isEmpty
  | c :: frac => c == 46 && frac.all isDecimalDigit && !(intDigits.isEmpty && frac.isEmpty)

/-- One key, written three times: `TMP`, `POP`, then `TMP` again. -/
def overwriteResponses : List AxiosResponse :=
  [responseOf [rawItem "20240101" "0200" "TMP" "1", rawItem "20240101" "0200" "POP" "30"],
   responseOf [rawItem "20240101" "0200" "TMP" "2"]]

/-- The end-to-end scenario of the specification: three raw items in one response. -/
def scenario : List AxiosResponse :=
  [responseOf [rawItem "20240101" "0200" "TMP" "10.5", rawItem "20240101" "0200" "POP" "30",
    rawItem "20240101" "0500" "SKY" "1"]]

/-- The two records as the specification lists them for the scenario, with the six
fields `date`, `time`, `temperature`, `rainProbability`, `sky`, `rainType` only. -/
def claimedScenarioRecords : List (Props JSValue) :=
  [[(js "date", .string (js "2024-01-01")), (js "time", .string (js "02:00")),
    (js "temperature", .number (.decimal false 105 (-1))),
    (js "rainProbability", .number (.decimal false 30 0)),
    (js "sky", .string (js "-")), (js "rainType", .string (js "-"))],
   [(js "date", .string (js "2024-01-01")), (js "time", .string (js "05:00")),
    (js "temperature", .number JSNumber.zero),
    (js "rainProbability", .number JSNumber.zero),
    (js "sky", .string (js "1")), (js "rainType", .string (js "-"))]]

/-- Two responses whose keys arrive out of chronological order: 05:00 of 2 January, then
02:00 of 1 January, then 05:00 of 2 January again. -/
def unsortedResponses : List AxiosResponse :=
  [responseOf [rawItem "20240102" "0500" "TMP" "7"],
   responseOf [rawItem "20240101" "0200" "TMP" "3", rawItem "20240102" "0500" "POP" "60"]]

/-- A response with two keys: the first has no `TMP` item, the last `TMP` value of the
second is `"abc"`. -/
def fallbackResponses : List AxiosResponse :=
  [responseOf [rawItem "20240101" "0200" "SKY" "1", rawItem "20240101" "0500" "TMP" "4",
    rawItem "20240101" "0500" "TMP" "abc"]]

/-- Korea Standard Time: nine hours ahead of UTC, without transitions. -/
def koreaStandardTime : TimeZone := { initialOffset := 32400000, transitions := [] }

/-- The clock reading 31 January 2024, 13:00, in Korea Standard Time. -/
def january31 : JSDate := { timeValue := 1706673600000, zone := koreaStandardTime }

/-- Local time in Samoa (Pacific/Apia) around the end of 2011: ten hours behind UTC until
the end of 29 December (30 December 2011, 10:00 UTC), fourteen hours ahead from then on;
30 December 2011 does not exist in the local calendar. -/
def pacificApia : TimeZone :=
  { initialOffset := -36000000, transitions := [(1325239200000, 50400000)] }

/-- The clock reading 29 December 2011, 13:00, in Samoa. -/
def december29Apia : JSDate := { timeValue := 1325199600000, zone := pacificApia }

/-- A network on which the request for 1 February 2024 fails and every other request
succeeds with one item. -/
def failingNetwork (p : RequestParams) : Except RequestFailure AxiosResponse :=
  if p.base_date = js "20240201" then .error .networkError
  else .ok (responseOf [rawItem "20240131" "1400" "TMP" "3"])

/-- A component state before the first fetch. -/
def initialState : ComponentState := { forecast := [], loading := false, error := none }

/-! ## parseDate -/

/-- C3. For every input of exactly 8 code units `parseDate` returns
`input[0:4] + "-" + input[4:6] + "-" + input[6:8]`; for an absent input and for every
input whose length is not 8 it returns the sentinel. -/
theorem parseDate_spec :
    (∀ a b c d e f g h : Nat,
      parseDate (some [a, b, c, d, e, f, g, h]) = [a, b, c, d] ++ js "-" ++ [e, f] ++ js "-" ++ [g, h]) ∧
    (∀ s : JSString, s.length = 8 →
      parseDate (some s) =
        s.take 4 ++ js "-" ++ (s.drop 4).take 2 ++ js "-" ++ (s.drop 6).take 2) ∧
    parseDate none = dateSentinel ∧
    (∀ s : JSString, s.length ≠ 8 → parseDate (some s) = dateSentinel) := by
  refine ⟨?_, ?_, rfl, ?_⟩
  · intro a b c d e f g h
    rfl
  · intro s hs
    match s, hs with
    | [a, b, c, d, e, f, g, h], _ => rfl
  · intro s hs
    simp [parseDate, hs, dateSentinel]

/-- C3 at concrete inputs: an 8-character date, and a 7-character one. -/
theorem parseDate_spec_witness :
    parseDate (some (js "20240101")) = js "2024-01-01" ∧
    parseDate (some (js "2024011")) = dateSentinel :=
  ⟨parseDate_spec.2.1 (js "20240101") (by decide), parseDate_spec.2.2.2 (js "2024011") (by decide)⟩

/-! ## getBaseTime -/

/-- C4. For every local hour `h` in 0..23 `getBaseTime` returns one of the eight slot
strings: for `h` in [2,23] the rendering of the unique slot `s` with `s ≤ h < s + 3`, and
for `h` in [0,2) the string `"2300"`. -/
theorem getBaseTime_spec (h : Nat) (hh : h < 24) :
    getBaseTime h ∈ [js "0200", js "0500", js "0800", js "1100", js "1400", js "1700",
      js "2000", js "2300"] ∧
    (2 ≤ h → ∃ s ∈ slots, (s ≤ h ∧ h < s + 3) ∧
      (∀ s' ∈ slots, s' ≤ h ∧ h < s' + 3 → s' = s) ∧ getBaseTime h = slotString s) ∧
    (h < 2 → getBaseTime h = js "2300") := by
  interval_cases h <;> decide

/-- C4 at the hours 13 and 1. -/
theorem getBaseTime_spec_witness :
    getBaseTime 13 = js "1100" ∧ getBaseTime 1 = js "2300" :=
  ⟨by
    obtain ⟨s, hs, hbound, -, heq⟩ := (getBaseTime_spec 13 (by decide)).2.1 (by decide)
    have h11 : s = 11 := by
      simp only [slots, List.mem_cons, List.mem_singleton, List.not_mem_nil, or_false] at hs
      omega
    rw [heq, h11]; decide,
   (getBaseTime_spec 1 (by decide)).2.2 (by decide)⟩

/-! ## getThreeDays -/

theorem yearSearch_spec (fuel : Nat) :
    ∀ y d : Int, d < dayFromYear (y + 1) → dayFromYear (y - fuel) ≤ d →
      dayFromYear (yearSearch fuel y d) ≤ d ∧ d < dayFromYear (yearSearch fuel y d + 1) := by
  induction fuel with
  | zero =>
    intro y d hup hlow
    simp only [Nat.cast_zero, sub_zero] at hlow
    exact ⟨hlow, hup⟩
  | succ f ih =>
    intro y d hup hlow
    unfold yearSearch
    by_cases h : dayFromYear y ≤ d
    · rw [if_pos h]
      exact ⟨h, hup⟩
    · rw [if_neg h]
      apply ih
      · have : y - 1 + 1 = y := by omega
        rw [this]
        omega
      · have : y - 1 - (f : Int) = y - ((f + 1 : Nat) : Int) := by push_cast; omega
        rw [this]
        exact hlow

/-- The year search has enough fuel: `yearOfDay d` is the year `y` with
`DayFromYear(y) ≤ d < DayFromYear(y + 1)`. -/
theorem yearOfDay_spec (d : Int) :
    dayFromYear (yearOfDay d) ≤ d ∧ d < dayFromYear (yearOfDay d + 1) := by
  unfold yearOfDay
  apply yearSearch_spec
  · unfold dayFromYear
    split_ifs <;> omega
  · unfold dayFromYear
    split_ifs <;> omega

/-- The rollovers of the specification in Korea Standard Time: across a month end
(31 January 2024), a leap day (28 February 2024) and a year end (31 December 2023). -/
theorem getThreeDays_rollover_examples :
    getThreeDays january31 = [js "20240131", js "20240201", js "20240202"] ∧
    getThreeDays (JSDate.mk 1709092800000 koreaStandardTime) =
      [js "20240228", js "20240229", js "20240301"] ∧
    getThreeDays (JSDate.mk 1703995200000 koreaStandardTime) =
      [js "20231231", js "20240101", js "20240102"] := by
  decide

/-- C5 at a failing input. On 29 December 2011, 13:00, in Samoa, whose calendar skipped
30 December, `getThreeDays` returns the date of 31 December twice: the strings are not
pairwise distinct, and the third is not the date two days after (1 January 2012). -/
theorem getThreeDays_skipped_day :
    december29Apia.getFullYear = 2011 ∧ december29Apia.getMonth = 11 ∧
    december29Apia.getDate = 29 ∧ december29Apia.getHours = 13 ∧
    getThreeDays december29Apia = [js "20111229", js "20111231", js "20111231"] := by
  decide

/-! ## The end-to-end scenario -/

/-- C6, as stated, fails: the records of the scenario are not the two six-field records
the specification lists; the first also carries the raw category fields `TMP` and `POP`,
the second `SKY`, which the spread `...value` copies. -/
theorem scenario_records_keep_raw_fields :
    mergeResponses scenario ≠ .ok claimedScenarioRecords ∧
    (mergeResponses scenario).toOption.map
        (fun recs => recs.map (fun r => (getOwn r (js "TMP"), getOwn r (js "POP"),
          getOwn r (js "SKY")))) =
      some [(some (.string (js "10.5")), some (.string (js "30")), none),
            (none, none, some (.string (js "1")))] := by
  decide

/-- C6, amended. The scenario produces exactly two records, in this order:
`{date:"2024-01-01", time:"02:00", TMP:"10.5", POP:"30", temperature:10.5,
rainProbability:30, sky:"-", rainType:"-"}` and `{date:"2024-01-01", time:"05:00",
SKY:"1", temperature:0, rainProbability:0, sky:"1", rainType:"-"}`, with no other
fields. -/
theorem scenario_records :
    mergeResponses scenario =
      .ok [[(js "date", .string (js "2024-01-01")), (js "time", .string (js "02:00")),
            (js "TMP", .string (js "10.5")), (js "POP", .string (js "30")),
            (js "temperature", .number (.decimal false 105 (-1))),
            (js "rainProbability", .number (.decimal false 30 0)),
            (js "sky", .string (js "-")), (js "rainType", .string (js "-"))],
           [(js "date", .string (js "2024-01-01")), (js "time", .string (js "05:00")),
            (js "SKY", .string (js "1")),
            (js "temperature", .number JSNumber.zero),
            (js "rainProbability", .number JSNumber.zero),
            (js "sky", .string (js "1")), (js "rainType", .string (js "-"))]] := by
  decide

/-! ## The fold of mergeResponses in closed form -/

theorem js_dash : js "-" = [45] := by decide

theorem firstOccurrences_mem (l : List JSString) (x : JSString) :
    x ∈ firstOccurrences l ↔ x ∈ l := by
  induction l with
  | nil => simp [firstOccurrences]
  | cons k ks ih =>
    simp only [firstOccurrences, List.mem_cons, List.mem_filter, ih]
    by_cases h : x = k <;> simp [h]

theorem firstOccurrences_nodup (l : List JSString) : (firstOccurrences l).Nodup := by
  induction l with
  | nil => simp [firstOccurrences]
  | cons k ks ih =>
    simp only [firstOccurrences, List.nodup_cons, List.mem_filter]
    exact ⟨by simp, ih.filter _⟩

theorem firstOccurrences_snoc (l : List JSString) (k : JSString) :
    firstOccurrences (l ++ [k]) =
      if k ∈ l then firstOccurrences l else firstOccurrences l ++ [k] := by
  induction l with
  | nil => simp [firstOccurrences]
  | cons a l ih =>
    simp only [List.cons_append, firstOccurrences, List.mem_cons, List.append_eq]
    rw [ih]
    by_cases hka : k = a
    · subst hka
      by_cases hkl : k ∈ l <;> simp [hkl, List.filter_append]
    · by_cases hkl : k ∈ l <;> simp [hkl, hka, List.filter_append]

theorem reduce_append (xs ys : List RawForecastItem) (acc : GroupedData) :
    reduce (xs ++ ys) acc =
      match reduce xs acc with
      | .error e => .error e
      | .ok acc' => reduce ys acc' := by
  induction xs generalizing acc with
  | nil => simp [reduce]
  | cons x xs ih =>
    simp only [List.cons_append, reduce]
    cases reducer acc x with
    | error e => rfl
    | ok a => exact ih a

theorem getOwn_map (L : List JSString) (F : JSString → GroupedRecord) (k : JSString) :
    getOwn (L.map (fun k' => (k', F k'))) k = if k ∈ L then some (F k) else none := by
  induction L with
  | nil => simp [getOwn]
  | cons a L ih =>
    simp only [List.map_cons, getOwn, ih, List.mem_cons]
    by_cases h : a = k
    · subst h; simp
    · have h' : ¬ k = a := fun e => h e.symm
      simp [h, h']

theorem assignCategory_of_not_mem (acc : GroupedData) (k : JSString) (item : RawForecastItem)
    (h : k ∉ acc.map Prod.fst) : assignCategory acc k item = acc := by
  induction acc with
  | nil => rfl
  | cons p acc ih =>
    obtain ⟨k', v⟩ := p
    simp only [List.map_cons, List.mem_cons, not_or] at h
    have hne : ¬ k' = k := fun e => h.1 e.symm
    simp [assignCategory, hne, ih h.2]

theorem assignCategory_snoc (acc : GroupedData) (k : JSString) (r : GroupedRecord)
    (item : RawForecastItem) (h : k ∉ acc.map Prod.fst) :
    assignCategory (acc ++ [(k, r)]) k item =
      acc ++ [(k, setProperty r (toStr item.category) item.fcstValue)] := by
  induction acc with
  | nil => simp [assignCategory]
  | cons p acc ih =>
    obtain ⟨k', v⟩ := p
    simp only [List.map_cons, List.mem_cons, not_or] at h
    have hne : ¬ k' = k := fun e => h.1 e.symm
    simp [assignCategory, hne, ih h.2]

theorem assignCategory_map (L : List JSString) (F : JSString → GroupedRecord) (k : JSString)
    (item : RawForecastItem) (hL : L.Nodup) :
    assignCategory (L.map (fun k' => (k', F k'))) k item =
      L.map (fun k' => (k', if k' = k then
        setProperty (F k') (toStr item.category) item.fcstValue else F k')) := by
  induction L with
  | nil => rfl
  | cons a L ih =>
    rw [List.nodup_cons] at hL
    simp only [List.map_cons, assignCategory]
    by_cases h : a = k
    · subst h
      simp only [if_true, List.cons.injEq, true_and]
      apply List.map_congr_left
      intro k' hk'
      have : ¬ k' = a := fun e => hL.1 (e ▸ hk')
      simp [this]
    · simp [h, ih hL.2]

theorem newRecord_ok (x : RawForecastItem) (r : GroupedRecord) (h : newRecord x = .ok r) :
    r = initialRecord x := by
  unfold newRecord at h
  cases ht : x.fcstTime with
  | none => simp [ht] at h
  | some t =>
    simp only [ht, Except.ok.injEq] at h
    simp [initialRecord, ht, ← h]

theorem groupRecord_snoc (g : List RawForecastItem) (x : RawForecastItem) (hg : g ≠ []) :
    groupRecord (g ++ [x]) = setProperty (groupRecord g) (toStr x.category) x.fcstValue := by
  cases g with
  | nil => exact absurd rfl hg
  | cons first rest => simp [groupRecord, List.foldl_append]

theorem groupOf_snoc (items : List RawForecastItem) (x : RawForecastItem) (k : JSString) :
    groupOf (items ++ [x]) k =
      if dateTimeKey x = k then groupOf items k ++ [x] else groupOf items k := by
  unfold groupOf
  by_cases h : dateTimeKey x = k <;> simp [List.filter_append, h]

theorem groupOf_eq_nil (items : List RawForecastItem) (k : JSString)
    (h : k ∉ items.map dateTimeKey) : groupOf items k = [] := by
  unfold groupOf
  rw [List.filter_eq_nil_iff]
  intro it hit
  simp only [decide_eq_true_eq]
  intro e
  exact h (List.mem_map.mpr ⟨it, hit, e⟩)

theorem groupOf_ne_nil (items : List RawForecastItem) (k : JSString)
    (h : k ∈ items.map dateTimeKey) : groupOf items k ≠ [] := by
  obtain ⟨it, hit, e⟩ := List.mem_map.mp h
  intro hnil
  have : it ∈ groupOf items k := by
    unfold groupOf
    exact List.mem_filter.mpr ⟨hit, by simp [e]⟩
  rw [hnil] at this
  simp at this

/-- The fold of `mergeResponses`, when it does not raise, ends in the closed form. -/
theorem reduce_closed_form (items : List RawForecastItem) :
    ∀ acc, reduce items [] = .ok acc → acc = closedForm items := by
  induction items using List.reverseRecOn with
  | nil =>
    intro acc h
    simp only [reduce, Except.ok.injEq] at h
    simp [closedForm, firstOccurrences, ← h]
  | append_singleton items x ih =>
    intro acc' h
    rw [reduce_append] at h
    cases hred : reduce items [] with
    | error e => simp [hred] at h
    | ok acc =>
      simp only [hred, reduce] at h
      have hr : reducer acc x = .ok acc' := by
        cases hh : reducer acc x with
        | error e => simp [hh] at h
        | ok a => simp only [hh, Except.ok.injEq] at h; rw [h]
      clear h
      have hacc := ih acc hred
      have hget := getOwn_map (firstOccurrences (items.map dateTimeKey))
        (fun k => groupRecord (groupOf items k)) (dateTimeKey x)
      simp only [firstOccurrences_mem] at hget
      have hkeys : acc.map Prod.fst = firstOccurrences (items.map dateTimeKey) := by
        rw [hacc, closedForm, List.map_map]
        simp [Function.comp_def]
      unfold closedForm
      rw [List.map_append, List.map_singleton, firstOccurrences_snoc]
      by_cases hk : dateTimeKey x ∈ items.map dateTimeKey
      · -- the key has been seen
        rw [if_pos hk]
        have hsome : getOwn acc (dateTimeKey x) = some (groupRecord (groupOf items (dateTimeKey x))) := by
          rw [hacc]; simpa [closedForm, hk] using hget
        unfold reducer at hr
        simp only [hsome, Except.ok.injEq] at hr
        rw [← hr, hacc, closedForm, assignCategory_map _ _ _ _ (firstOccurrences_nodup _)]
        apply List.map_congr_left
        intro k' _
        rw [groupOf_snoc]
        by_cases e : k' = dateTimeKey x
        · subst e
          simp [groupRecord_snoc _ _ (groupOf_ne_nil _ _ hk)]
        · have e' : ¬ dateTimeKey x = k' := fun q => e q.symm
          simp [e, e']
      · -- a new key
        rw [if_neg hk]
        have hnone : getOwn acc (dateTimeKey x) = none := by
          rw [hacc]; simpa [closedForm, hk] using hget
        unfold reducer at hr
        simp only [hnone] at hr
        cases hnew : newRecord x with
        | error e => simp [hnew] at hr
        | ok r =>
          simp only [hnew, Except.ok.injEq] at hr
          have hnot : dateTimeKey x ∉ acc.map Prod.fst := by
            rw [hkeys, firstOccurrences_mem]; exact hk
          rw [assignCategory_snoc _ _ _ _ hnot] at hr
          rw [← hr, hacc, closedForm, List.map_append, List.map_singleton]
          congr 1
          · apply List.map_congr_left
            intro k' hk'
            rw [firstOccurrences_mem] at hk'
            have e' : ¬ dateTimeKey x = k' := fun q => hk (q ▸ hk')
            simp [groupOf_snoc, e']
          · rw [groupOf_snoc, if_pos rfl, groupOf_eq_nil _ _ hk, newRecord_ok x r hnew]
            rfl

theorem arrayIndex?_dateTimeKey (it : RawForecastItem) : arrayIndex? (dateTimeKey it) = none := by
  have h : (dateTimeKey it).all isDecimalDigit = false := by
    simp [dateTimeKey, js_dash, List.all_append, isDecimalDigit]
  simp [arrayIndex?, h]

theorem ownEntries_of_no_index {α : Type} (o : Props α)
    (h : ∀ p ∈ o, arrayIndex? p.1 = none) : ownEntries o = o := by
  have hidx : indexProperties o = [] := by
    induction o with
    | nil => rfl
    | cons p o ih =>
      obtain ⟨k, v⟩ := p
      have hk : arrayIndex? k = none := h (k, v) (List.mem_cons_self _ _)
      simp only [indexProperties, hk]
      exact ih (fun q hq => h q (List.mem_cons_of_mem _ hq))
  have hfil : o.filter (fun p => (arrayIndex? p.1).isNone) = o := by
    rw [List.filter_eq_self]
    intro p hp
    simp [h p hp]
  simp [ownEntries, hidx, hfil]

theorem ownEntries_closedForm (items : List RawForecastItem) :
    ownEntries (closedForm items) = closedForm items := by
  apply ownEntries_of_no_index
  intro p hp
  obtain ⟨k, hk, rfl⟩ := List.mem_map.mp hp
  rw [firstOccurrences_mem] at hk
  obtain ⟨it, _, rfl⟩ := List.mem_map.mp hk
  exact arrayIndex?_dateTimeKey it

theorem flatMap_ok (responses : List AxiosResponse) :
    ∀ items, flatMap responses = .ok items → items = allItems responses := by
  induction responses with
  | nil =>
    intro items h
    simp only [flatMap, Except.ok.injEq] at h
    simp [allItems, ← h]
  | cons res rest ih =>
    intro items h
    unfold flatMap at h
    cases hres : itemsOf res with
    | error e => simp [hres] at h
    | ok l =>
      cases hrest : flatMap rest with
      | error e => simp [hres, hrest] at h
      | ok ls =>
        simp only [hres, hrest, Except.ok.injEq] at h
        have hls := ih ls hrest
        simp [allItems, itemList, hres, ← h, hls]

/-- What `mergeResponses` returns when it returns: the projection of the closed form. -/
theorem mergeResponses_closed_form (responses : List AxiosResponse)
    (recs : List (Props JSValue)) (h : mergeResponses responses = .ok recs) :
    reduce (allItems responses) [] = .ok (closedForm (allItems responses)) ∧
    recs = (firstOccurrences ((allItems responses).map dateTimeKey)).map
      (fun k => project (groupRecord (groupOf (allItems responses) k))) := by
  unfold mergeResponses at h
  cases hflat : flatMap responses with
  | error e => simp [hflat] at h
  | ok items =>
    have hitems := flatMap_ok responses items hflat
    subst hitems
    simp only [hflat] at h
    cases hred : reduce (allItems responses) [] with
    | error e => simp [hred] at h
    | ok acc =>
      have hacc := reduce_closed_form _ acc hred
      simp only [hred, Except.ok.injEq] at h
      subst hacc
      refine ⟨rfl, ?_⟩
      rw [← h, ownEntries_closedForm, closedForm, List.map_map]
      rfl

/-! ## Output order -/

/-- C9. The records `mergeResponses` returns are in the order in which their keys first
occur in the flattened item sequence: the i-th record is the projection of the group of
the i-th distinct key by first occurrence; nothing re-sorts the output. -/
theorem mergeResponses_order (responses : List AxiosResponse) (recs : List (Props JSValue))
    (h : mergeResponses responses = .ok recs) :
    recs = (firstOccurrences ((allItems responses).map dateTimeKey)).map
      (fun k => project (groupRecord (groupOf (allItems responses) k))) :=
  (mergeResponses_closed_form responses recs h).2

/-- C9 on `unsortedResponses`: the record of 2 January 05:00 comes first, as its key was
seen first. -/
theorem mergeResponses_order_witness :
    [[(js "date", JSValue.string (js "2024-01-02")), (js "time", .string (js "05:00")),
      (js "TMP", .string (js "7")), (js "POP", .string (js "60")),
      (js "temperature", .number (.decimal false 7 0)),
      (js "rainProbability", .number (.decimal false 60 0)),
      (js "sky", .string (js "-")), (js "rainType", .string (js "-"))],
     [(js "date", .string (js "2024-01-01")), (js "time", .string (js "02:00")),
      (js "TMP", .string (js "3")),
      (js "temperature", .number (.decimal false 3 0)),
      (js "rainProbability", .number JSNumber.zero),
      (js "sky", .string (js "-")), (js "rainType", .string (js "-"))]] =
    (firstOccurrences ((allItems unsortedResponses).map dateTimeKey)).map
      (fun k => project (groupRecord (groupOf (allItems unsortedResponses) k))) :=
  mergeResponses_order unsortedResponses _ (by decide)

/-! ## Merge completeness -/

theorem reduce_ok_of_fcstTime (items : List RawForecastItem)
    (h : ∀ it ∈ items, it.fcstTime ≠ none) : ∀ acc, ∃ acc', reduce items acc = .ok acc' := by
  induction items with
  | nil => intro acc; exact ⟨acc, rfl⟩
  | cons x xs ih =>
    intro acc
    have hx : x.fcstTime ≠ none := h x (List.mem_cons_self _ _)
    obtain ⟨t, ht⟩ := Option.ne_none_iff_exists'.mp hx
    have hr : ∃ a, reducer acc x = .ok a := by
      unfold reducer
      cases getOwn acc (dateTimeKey x) with
      | none => simp [newRecord, ht]
      | some r => simp
    obtain ⟨a, ha⟩ := hr
    obtain ⟨acc', hacc'⟩ := ih (fun it hit => h it (List.mem_cons_of_mem _ hit)) a
    exact ⟨acc', by simp [reduce, ha, hacc']⟩

theorem firstOccurrences_length (l : List JSString) :
    (firstOccurrences l).length = l.dedup.length := by
  rw [← List.toFinset_card_of_nodup (firstOccurrences_nodup l), ← List.card_toFinset]
  congr 1
  ext x
  simp [firstOccurrences_mem]

theorem dash_split (d d' t t' : JSString) (hd : 45 ∉ d) (hd' : 45 ∉ d')
    (h : d ++ 45 :: t = d' ++ 45 :: t') : d = d' ∧ t = t' := by
  induction d generalizing d' with
  | nil =>
    cases d' with
    | nil => simpa using h
    | cons c d'' =>
      simp only [List.nil_append, List.cons_append, List.cons.injEq] at h
      exact absurd h.1 (fun e => hd' (by simp [e]))
  | cons a d1 ih =>
    cases d' with
    | nil =>
      simp only [List.nil_append, List.cons_append, List.cons.injEq] at h
      exact absurd h.1.symm (fun e => hd (by simp [e]))
    | cons c d'' =>
      simp only [List.cons_append, List.cons.injEq] at h
      have hd1 : 45 ∉ d1 := fun q => hd (List.mem_cons_of_mem _ q)
      have hd2 : 45 ∉ d'' := fun q => hd' (List.mem_cons_of_mem _ q)
      obtain ⟨e1, e2⟩ := ih d'' hd1 hd2 h.2
      exact ⟨by rw [h.1, e1], e2⟩

/-- C1, as stated, fails: the two items of `collidingResponses` have different
(fcstDate, fcstTime) pairs, `("2024-01", "01")` and `("2024", "01-01")`, and share the
key string `"2024-01-01"`, so `mergeResponses` returns one record for two pairs. -/
theorem mergeResponses_key_collision :
    (mergeResponses collidingResponses).toOption.map List.length = some 1 ∧
    ((allItems collidingResponses).map dateTimePair).dedup.length = 2 := by
  decide

/-- C1, amended. Whenever `mergeResponses` returns, the number of records equals the
number of distinct key strings `"<fcstDate>-<fcstTime>"` among all items of all
responses; and when, moreover, every item carries a string `fcstTime` and a string
`fcstDate` without `-`, it equals the number of distinct (fcstDate, fcstTime) pairs. -/
theorem mergeResponses_count (responses : List AxiosResponse) (recs : List (Props JSValue))
    (h : mergeResponses responses = .ok recs) :
    recs.length = ((allItems responses).map dateTimeKey).dedup.length ∧
    ((∀ it ∈ allItems responses, ∃ d t, it.fcstDate = some d ∧ it.fcstTime = some t ∧ 45 ∉ d) →
      recs.length = ((allItems responses).map dateTimePair).dedup.length) := by
  have hcount : recs.length = ((allItems responses).map dateTimeKey).dedup.length := by
    rw [(mergeResponses_closed_form responses recs h).2, List.length_map,
      firstOccurrences_length]
  refine ⟨hcount, ?_⟩
  intro hwf
  rw [hcount, ← List.card_toFinset, ← List.card_toFinset]
  have hmap : (allItems responses).map dateTimeKey =
      ((allItems responses).map dateTimePair).map
        (fun p => toStr p.1 ++ js "-" ++ toStr p.2) := by
    rw [List.map_map]; rfl
  have himg : (((allItems responses).map dateTimePair).map
      (fun p => toStr p.1 ++ js "-" ++ toStr p.2)).toFinset =
      ((allItems responses).map dateTimePair).toFinset.image
        (fun p => toStr p.1 ++ js "-" ++ toStr p.2) := by
    ext x
    simp
  rw [hmap, himg]
  apply Finset.card_image_of_injOn
  intro p hp q hq hpq
  simp only [Finset.mem_coe, List.mem_toFinset, List.mem_map] at hp hq
  obtain ⟨ip, hip, rfl⟩ := hp
  obtain ⟨iq, hiq, rfl⟩ := hq
  obtain ⟨d, t, hd, ht, hdash⟩ := hwf ip hip
  obtain ⟨d', t', hd', ht', hdash'⟩ := hwf iq hiq
  simp only [dateTimePair, hd, ht, hd', ht', toStr, js_dash, List.append_assoc,
    List.singleton_append] at hpq ⊢
  obtain ⟨e1, e2⟩ := dash_split d d' t t' hdash hdash' hpq
  rw [e1, e2]

/-- C1 on the end-to-end scenario: three items and two records, which is the number of
distinct keys and of distinct pairs. -/
theorem mergeResponses_count_witness :
    ((allItems scenario).map dateTimeKey).dedup.length = 2 ∧
    ((allItems scenario).map dateTimePair).dedup.length = 2 := by
  have h := mergeResponses_count scenario
    [project (groupRecord (groupOf (allItems scenario) (js "20240101-0200"))),
     project (groupRecord (groupOf (allItems scenario) (js "20240101-0500")))] (by decide)
  refine ⟨h.1.symm, (h.2 ?_).symm⟩
  intro it hit
  have hmem : it ∈ [rawItem "20240101" "0200" "TMP" "10.5",
      rawItem "20240101" "0200" "POP" "30", rawItem "20240101" "0500" "SKY" "1"] := hit
  simp only [List.mem_cons, List.mem_singleton, List.not_mem_nil, or_false] at hmem
  rcases hmem with rfl | rfl | rfl <;> exact ⟨_, _, rfl, rfl, by decide⟩

/-! ## Category overwrite -/

theorem getOwn_defineProperty {α : Type} (o : Props α) (k : JSString) (v : α) (k' : JSString) :
    getOwn (defineProperty o k v) k' = if k = k' then some v else getOwn o k' := by
  induction o with
  | nil => simp [defineProperty, getOwn]
  | cons p o ih =>
    obtain ⟨a, w⟩ := p
    by_cases hak : a = k
    · subst hak
      by_cases hak' : a = k' <;> simp [defineProperty, getOwn, hak']
    · by_cases hak' : a = k'
      · subst hak'
        have hka : ¬ k = a := fun e => hak e.symm
        simp [defineProperty, getOwn, hak, hka]
      · simp [defineProperty, getOwn, hak, hak', ih]

theorem getOwn_setProperty {α : Type} (o : Props α) (k : JSString) (v : α) (k' : JSString)
    (hk' : k' ≠ js "__proto__") :
    getOwn (setProperty o k v) k' = if k = k' then some v else getOwn o k' := by
  unfold setProperty
  by_cases h : k = js "__proto__"
  · have hkk : ¬ k = k' := fun e => hk' (e ▸ h)
    rw [if_pos h, if_neg hkk]
  · rw [if_neg h, getOwn_defineProperty]

theorem getOwn_foldl_assign (g : List RawForecastItem) (r0 : GroupedRecord) (c : JSString)
    (hc : c ≠ js "__proto__") :
    getOwn (g.foldl (fun r it => setProperty r (toStr it.category) it.fcstValue) r0) c =
      match lastOfCategory g c with
      | some last => some last.fcstValue
      | none => getOwn r0 c := by
  induction g using List.reverseRecOn with
  | nil => simp [lastOfCategory]
  | append_singleton g x ih =>
    rw [List.foldl_append, List.foldl_cons, List.foldl_nil, getOwn_setProperty _ _ _ _ hc]
    by_cases hx : toStr x.category = c
    · simp [lastOfCategory, List.filter_append, hx]
    · rw [if_neg hx, ih]
      simp [lastOfCategory, List.filter_append, hx]

theorem getOwn_groupRecord (g : List RawForecastItem) (c : JSString)
    (hc : c ≠ js "__proto__") (last : RawForecastItem) (hlast : lastOfCategory g c = some last) :
    getOwn (groupRecord g) c = some last.fcstValue := by
  cases g with
  | nil => simp [lastOfCategory] at hlast
  | cons first rest =>
    simp only [groupRecord]
    rw [getOwn_foldl_assign _ _ _ hc, hlast]

/-- C2, as stated, fails: two items share a key and differ in category (`TMP` and
`__proto__`), and the record of the key carries the value of the first only. The
assignment under the name `__proto__` reaches the inherited setter, which ignores a
string, so the value `"2"` is stored nowhere. -/
theorem reduce_drops_proto_category :
    reduce (allItems [responseOf [rawItem "20240101" "0200" "TMP" "1",
      rawItem "20240101" "0200" "__proto__" "2"]]) [] =
    .ok [(js "20240101-0200", [(js "date", some (js "2024-01-01")),
      (js "time", some (js "02:00")), (js "TMP", some (js "1"))])] := by
  decide

/-- C2, amended. For every item of the flattened sequence whose category is not the
reserved name `__proto__`, the record accumulated for the item's key holds, under the
item's category, the value of the last item of that key and category in the flattened
sequence. So two items of one key with different categories both leave their field on
the one record, and of two items with the same category the later one wins (last write
wins per category, not per record). -/
theorem reduce_last_write_wins (responses : List AxiosResponse) (acc : GroupedData)
    (h : reduce (allItems responses) [] = .ok acc) (it : RawForecastItem)
    (hit : it ∈ allItems responses) (hc : toStr it.category ≠ js "__proto__") :
    ∃ r last, getOwn acc (dateTimeKey it) = some r ∧
      lastOfCategory (groupOf (allItems responses) (dateTimeKey it)) (toStr it.category) =
        some last ∧
      getOwn r (toStr it.category) = some last.fcstValue := by
  have hacc := reduce_closed_form _ acc h
  have hmem : dateTimeKey it ∈ (allItems responses).map dateTimeKey :=
    List.mem_map.mpr ⟨it, hit, rfl⟩
  have hget : getOwn acc (dateTimeKey it) =
      some (groupRecord (groupOf (allItems responses) (dateTimeKey it))) := by
    rw [hacc, closedForm, getOwn_map, if_pos ((firstOccurrences_mem _ _).mpr hmem)]
  have hne : (groupOf (allItems responses) (dateTimeKey it)).filter
      (fun j => toStr j.category = toStr it.category) ≠ [] := by
    intro hnil
    have : it ∈ (groupOf (allItems responses) (dateTimeKey it)).filter
        (fun j => toStr j.category = toStr it.category) :=
      List.mem_filter.mpr ⟨List.mem_filter.mpr ⟨hit, by simp⟩, by simp⟩
    rw [hnil] at this
    simp at this
  obtain ⟨last, hlast⟩ : ∃ last, lastOfCategory (groupOf (allItems responses) (dateTimeKey it))
      (toStr it.category) = some last := by
    unfold lastOfCategory
    exact ⟨_, List.getLast?_eq_getLast _ hne⟩
  exact ⟨_, last, hget, hlast, getOwn_groupRecord _ _ hc last hlast⟩

/-- C2 on `overwriteResponses`, at its first item (`TMP`, value `"1"`): the record of
the key holds the later `TMP` value `"2"`. -/
theorem reduce_last_write_wins_witness :
    ∃ r last, getOwn (closedForm (allItems overwriteResponses)) (js "20240101-0200") = some r ∧
      lastOfCategory (groupOf (allItems overwriteResponses) (js "20240101-0200")) (js "TMP") =
        some last ∧
      getOwn r (js "TMP") = some last.fcstValue :=
  reduce_last_write_wins overwriteResponses (closedForm (allItems overwriteResponses))
    (by decide) (rawItem "20240101" "0200" "TMP" "1") (by decide) (by decide)

/-! ## Default fallback of the temperature -/

theorem getOwn_project_temperature (value : GroupedRecord) :
    getOwn (project value) (js "temperature") =
      some (.number (orZero (parseFloat ((getOwn value (js "TMP")).join)))) := by
  unfold project
  simp only []
  rw [getOwn_defineProperty, if_neg (by decide), getOwn_defineProperty, if_neg (by decide),
    getOwn_defineProperty, if_neg (by decide), getOwn_defineProperty, if_pos rfl]

theorem getOwn_groupRecord_none (g : List RawForecastItem) (c : JSString)
    (hc : c ≠ js "__proto__") (hdate : c ≠ js "date") (htime : c ≠ js "time")
    (hnone : lastOfCategory g c = none) : getOwn (groupRecord g) c = none := by
  cases g with
  | nil => rfl
  | cons first rest =>
    simp only [groupRecord]
    rw [getOwn_foldl_assign _ _ _ hc, hnone]
    have h1 : ¬ js "date" = c := fun e => hdate e.symm
    have h2 : ¬ js "time" = c := fun e => htime e.symm
    simp [initialRecord, getOwn, h1, h2]

/-- C7, as stated, fails: the only `TMP` value `"12abc"` is not a number, and the
temperature of the record is 12, the number its leading digits spell, since `parseFloat`
reads the longest numeric prefix. -/
theorem temperature_of_leading_digits :
    isNumericString (js "12abc") = false ∧
    mergeResponses [responseOf [rawItem "20240101" "0200" "TMP" "12abc"]] =
      .ok [[(js "date", .string (js "2024-01-01")), (js "time", .string (js "02:00")),
            (js "TMP", .string (js "12abc")),
            (js "temperature", .number (.decimal false 12 0)),
            (js "rainProbability", .number JSNumber.zero),
            (js "sky", .string (js "-")), (js "rainType", .string (js "-"))]] := by
  decide

/-- C7, amended. For every record `mergeResponses` returns, with `k` the key of the
record: if no item of the group of `k` has category `TMP`, the temperature is 0; and if
`parseFloat` of the value of the group's last `TMP` item is `NaN` (the value is absent,
or after leading white space it does not start with a decimal number), the temperature
is 0. -/
theorem mergeResponses_temperature_default (responses : List AxiosResponse)
    (recs : List (Props JSValue)) (h : mergeResponses responses = .ok recs)
    (i : Nat) (r : Props JSValue) (hr : recs[i]? = some r) :
    ∃ k, (firstOccurrences ((allItems responses).map dateTimeKey))[i]? = some k ∧
      ((∀ it ∈ groupOf (allItems responses) k, toStr it.category ≠ js "TMP") →
        getOwn r (js "temperature") = some (.number JSNumber.zero)) ∧
      (∀ last, lastOfCategory (groupOf (allItems responses) k) (js "TMP") = some last →
        parseFloat last.fcstValue = .nan →
        getOwn r (js "temperature") = some (.number JSNumber.zero)) := by
  rw [(mergeResponses_closed_form responses recs h).2, List.getElem?_map] at hr
  cases hk : (firstOccurrences ((allItems responses).map dateTimeKey))[i]? with
  | none => simp [hk] at hr
  | some k =>
    simp only [hk, Option.map_some', Option.some.injEq] at hr
    refine ⟨k, rfl, ?_, ?_⟩
    · intro hno
      have hnone : lastOfCategory (groupOf (allItems responses) k) (js "TMP") = none := by
        unfold lastOfCategory
        rw [List.getLast?_eq_none_iff, List.filter_eq_nil_iff]
        intro it hit
        simpa using hno it hit
      rw [← hr, getOwn_project_temperature,
        getOwn_groupRecord_none _ _ (by decide) (by decide) (by decide) hnone]
      rfl
    · intro last hlast hnan
      rw [← hr, getOwn_project_temperature, getOwn_groupRecord _ _ (by decide) last hlast]
      have hjoin : (some last.fcstValue).join = last.fcstValue := rfl
      rw [hjoin, hnan]
      rfl

/-- C7 at the two records of `fallbackResponses`: both temperatures are 0. -/
theorem mergeResponses_temperature_default_witness :
    getOwn (project (groupRecord (groupOf (allItems fallbackResponses) (js "20240101-0200"))))
      (js "temperature") = some (.number JSNumber.zero) ∧
    getOwn (project (groupRecord (groupOf (allItems fallbackResponses) (js "20240101-0500"))))
      (js "temperature") = some (.number JSNumber.zero) := by
  have hrecs : mergeResponses fallbackResponses =
      .ok [project (groupRecord (groupOf (allItems fallbackResponses) (js "20240101-0200"))),
        project (groupRecord (groupOf (allItems fallbackResponses) (js "20240101-0500")))] := by
    decide
  constructor
  · obtain ⟨k, hk, hno, -⟩ :=
      mergeResponses_temperature_default fallbackResponses _ hrecs 0 _ rfl
    have h0 : (firstOccurrences ((allItems fallbackResponses).map dateTimeKey))[0]? =
        some (js "20240101-0200") := by decide
    rw [h0] at hk
    cases hk
    exact hno (by decide)
  · obtain ⟨k, hk, -, hlast⟩ :=
      mergeResponses_temperature_default fallbackResponses _ hrecs 1 _ rfl
    have h1 : (firstOccurrences ((allItems fallbackResponses).map dateTimeKey))[1]? =
        some (js "20240101-0500") := by decide
    rw [h1] at hk
    cases hk
    exact hlast (rawItem "20240101" "0500" "TMP" "abc") (by decide) (by decide)

/-! ## Field-level problems -/

theorem flatMap_ok_of_data (responses : List AxiosResponse)
    (h : ∀ res ∈ responses, res.data ≠ none) : flatMap responses = .ok (allItems responses) := by
  induction responses with
  | nil => rfl
  | cons res rest ih =>
    have hres : res.data ≠ none := h res (List.mem_cons_self _ _)
    obtain ⟨d, hd⟩ := Option.ne_none_iff_exists'.mp hres
    have hrest := ih (fun r hr => h r (List.mem_cons_of_mem _ hr))
    have hok : ∃ l, itemsOf res = .ok l := by
      unfold itemsOf
      rw [hd]
      repeat' (first | exact ⟨_, rfl⟩ | contradiction | split)
    obtain ⟨l, hl⟩ := hok
    simp [flatMap, hl, hrest, allItems, itemList]

/-- When no response has a `null` or `undefined` body and every item carries a string
`fcstTime`, `mergeResponses` returns, whatever the other fields hold or lack. -/
theorem mergeResponses_ok_of_fcstTime (responses : List AxiosResponse)
    (hdata : ∀ res ∈ responses, res.data ≠ none)
    (h : ∀ it ∈ allItems responses, it.fcstTime ≠ none) :
    ∃ recs, mergeResponses responses = .ok recs := by
  obtain ⟨acc, hacc⟩ := reduce_ok_of_fcstTime (allItems responses) h []
  refine ⟨(ownEntries acc).map (fun p => project p.2), ?_⟩
  simp [mergeResponses, flatMap_ok_of_data responses hdata, hacc]

/-- A response whose body is `null` makes `mergeResponses` raise a `TypeError`: line 45
reads `res.data.response` before any optional chaining. -/
theorem mergeResponses_null_data_raises :
    mergeResponses [AxiosResponse.mk none] = .error .typeError ∧
    mergeResponses [responseOf [rawItem "20240101" "0200" "TMP" "10"], AxiosResponse.mk none] =
      .error .typeError := by
  decide

/-- C10 at a failing input. An item without `fcstTime` makes `mergeResponses` raise a
`TypeError` (`item.fcstTime.slice` on `undefined`), while the same item without
`fcstDate` is absorbed: `parseDate` guards the absent date and the record carries the
sentinel. -/
theorem mergeResponses_absent_fcstTime_raises :
    mergeResponses [responseOf [RawForecastItem.mk (some (js "20240101")) none
      (some (js "TMP")) (some (js "10"))]] = .error .typeError ∧
    mergeResponses [responseOf [RawForecastItem.mk none (some (js "0200"))
      (some (js "TMP")) (some (js "10"))]] =
      .ok [[(js "date", .string dateSentinel), (js "time", .string (js "02:00")),
            (js "TMP", .string (js "10")),
            (js "temperature", .number (.decimal false 10 0)),
            (js "rainProbability", .number JSNumber.zero),
            (js "sky", .string (js "-")), (js "rainType", .string (js "-"))]] := by
  decide

/-! ## fetchForecast -/

theorem promiseAll_error_of_mem {ε α : Type} (l : List (Except ε α)) (e : ε)
    (h : Except.error e ∈ l) : ∃ e', promiseAll l = .error e' := by
  induction l with
  | nil => simp at h
  | cons x xs ih =>
    cases x with
    | error e0 => exact ⟨e0, rfl⟩
    | ok a =>
      have hmem : Except.error e ∈ xs := by simpa using h
      obtain ⟨e', he'⟩ := ih hmem
      exact ⟨e', by simp [promiseAll, he']⟩

/-- C8. If any one of the three per-date requests fails, the invocation of
`fetchForecast` fails: `setForecast` is never called (the forecast state keeps its
previous value, no partial record set is stored), the error state ends as the user-facing
message, and loading ends as `false`. -/
theorem fetchForecast_all_or_nothing (now now' : JSDate)
    (axiosGet : RequestParams → Except RequestFailure AxiosResponse) (st : ComponentState)
    (baseDate : JSString) (e : RequestFailure) (hdate : baseDate ∈ getThreeDays now)
    (hfail : axiosGet { base_date := baseDate, base_time := getBaseTime now'.getHours } =
      .error e) :
    (∀ f, Effect.setForecast f ∉ fetchForecast now now' axiosGet) ∧
    (st.run (fetchForecast now now' axiosGet)).error = some failureMessage ∧
    (st.run (fetchForecast now now' axiosGet)).loading = false ∧
    (st.run (fetchForecast now now' axiosGet)).forecast = st.forecast := by
  have hmem : Except.error e ∈ (getThreeDays now).map (fun baseDate =>
      axiosGet { base_date := baseDate, base_time := getBaseTime now'.getHours }) :=
    List.mem_map.mpr ⟨baseDate, hdate, hfail⟩
  obtain ⟨e', he'⟩ := promiseAll_error_of_mem _ e hmem
  have htry : tryCatch now now' axiosGet =
      [.consoleLog, .consoleLog, .consoleLog, .consoleError, .setError (some failureMessage)] := by
    simp [tryCatch, he']
  simp [fetchForecast, htry, ComponentState.run, ComponentState.apply]

/-- C8 on 31 January 2024, 13:00, when the request for 1 February fails and the other
two succeed. -/
theorem fetchForecast_all_or_nothing_witness :
    (∀ f, Effect.setForecast f ∉ fetchForecast january31 january31 failingNetwork) ∧
    (initialState.run (fetchForecast january31 january31 failingNetwork)).error =
      some failureMessage ∧
    (initialState.run (fetchForecast january31 january31 failingNetwork)).loading = false ∧
    (initialState.run (fetchForecast january31 january31 failingNetwork)).forecast =
      initialState.forecast :=
  fetchForecast_all_or_nothing january31 january31 failingNetwork initialState
    (js "20240201") .networkError (by decide) (by decide)

end ThreeDayForecast
